import Mathlib

/-
Shallow embedding of the camera-trap metadata editor client
(src/static/js/app.js, class CameraTrapApp).

JS strings are modelled as Lean String (the debug buffer as List Char so
that character-level truncation is exact), JS objects used as string maps
as insertion-ordered association lists, DOM pixel coordinates as rationals,
and every fetch/alert side effect as an explicit component of the result.
-/

namespace CamTrap

/-- A rendered metadata form field: its label, current input value, the
readonly flag, and whether a delete control is attached to it. -/
structure Field where
  name : String
  value : String
  readonly : Bool
  hasDelete : Bool
deriving DecidableEq

/-- The denylist of readonly field names (compared against the lowercased
key in displayMetadata). -/
def readonlyFields : List String := ["filename", "size_mb", "dimensions"]

/-- The fixed list of common camera-trap fields, always rendered. -/
def commonFields : List String :=
  ["Species", "Count", "Behavior", "Weather", "Temperature_C", "Temperature_F",
   "Location", "Camera_ID", "Researcher", "Notes"]

/-- Mirrors isCommonField: membership in the common-field list. -/
def isCommonField (fieldName : String) : Bool :=
  commonFields.contains fieldName

/-- Property read on a JS object modelled as an association list. -/
def objLookup : List (String × String) → String → Option String
  | [], _ => none
  | (k, v) :: rest, key => if k = key then some v else objLookup rest key

/-- Mirrors Object.prototype.hasOwnProperty on the modelled object. -/
def hasOwnProperty (md : List (String × String)) (key : String) : Bool :=
  (objLookup md key).isSome

/-- Property assignment on a JS object: overwrite the existing key in
place, else append a new entry. -/
def objSet : List (String × String) → String → String → List (String × String)
  | [], key, v => [(key, v)]
  | (k, w) :: rest, key, v =>
      if k = key then (k, v) :: rest else (k, w) :: objSet rest key v

/-- The JS delete operator on the modelled object. -/
def objDelete : List (String × String) → String → List (String × String)
  | [], _ => []
  | (k, w) :: rest, key => if k = key then rest else (k, w) :: objDelete rest key

/-- A selection rectangle {x, y, width, height} in image pixel space. -/
structure Rect where
  x : ℚ
  y : ℚ
  width : ℚ
  height : ℚ
deriving DecidableEq

/-- The mutable session state owned by CameraTrapApp, together with the
DOM state the claims observe (form contents, button disabled flags,
visibility of the main content area, the add-field dialog). -/
structure AppState where
  currentIndex : Int
  totalImages : Int
  currentMetadata : List (String × String)
  form : List Field
  debugBuffer : List Char
  isSelecting : Bool
  selectionStart : Option (ℚ × ℚ)
  currentSelection : Option Rect
  identifyBtnDisabled : Bool
  firstBtnDisabled : Bool
  prevBtnDisabled : Bool
  nextBtnDisabled : Bool
  lastBtnDisabled : Bool
  mainContentVisible : Bool
  addFieldModalOpen : Bool
deriving DecidableEq

/-- Mirrors key.toLowerCase() on the ASCII field names the editor uses:
lowercase the string character by character. -/
def toLowerCase (key : String) : String :=
  String.mk (key.data.map Char.toLower)

/-- Drop leading whitespace characters. -/
def dropLeadingWs : List Char → List Char
  | [] => []
  | c :: rest => if c.isWhitespace then dropLeadingWs rest else c :: rest

/-- Mirrors value.trim(): strip whitespace from both ends of the string. -/
def trimString (s : String) : String :=
  String.mk ((dropLeadingWs ((dropLeadingWs s.data).reverse)).reverse)

/-- The field element built by createMetadataField: a delete control is
attached exactly when the field is neither readonly nor common. -/
def mkField (label value : String) (readonly : Bool) : Field :=
  { name := label, value := value, readonly := readonly,
    hasDelete := !readonly && !isCommonField label }

/-- Mirrors createMetadataField: append one field element to the
metadata container. -/
def createMetadataField (container : List Field) (label value : String)
    (readonly : Bool) : List Field :=
  container ++ [mkField label value readonly]

/-- Mirrors displayMetadata: clear the container, render one field per
metadata entry (readonly when the lowercased key is denylisted), then one
empty field for each common field name the metadata lacks. -/
def displayMetadata (md : List (String × String)) : List Field :=
  let withEntries := md.foldl
    (fun acc kv =>
      createMetadataField acc kv.1 kv.2 (readonlyFields.contains (toLowerCase kv.1))) []
  commonFields.foldl
    (fun acc field =>
      if hasOwnProperty md field then acc else createMetadataField acc field "" false)
    withEntries

/-- Mirrors updateNavigationButtons. -/
def updateNavigationButtons (s : AppState) : AppState :=
  { s with firstBtnDisabled := s.currentIndex == 0,
           prevBtnDisabled := s.currentIndex == 0,
           nextBtnDisabled := s.currentIndex == s.totalImages - 1,
           lastBtnDisabled := s.currentIndex == s.totalImages - 1 }

/-- Mirrors cancelIdentifyMode: leave selection mode, clear the current
selection, and re-enable navigation per updateNavigationButtons. -/
def cancelIdentifyMode (s : AppState) : AppState :=
  updateNavigationButtons { s with isSelecting := false, currentSelection := none }

/-- Mirrors startIdentifyMode. -/
def startIdentifyMode (s : AppState) : AppState :=
  { s with isSelecting := true, firstBtnDisabled := true, prevBtnDisabled := true,
           nextBtnDisabled := true, lastBtnDisabled := true }

/-- Mirrors resetInterface: clear the form, cancel any selection, zero the
navigation state and disable all navigation buttons. -/
def resetInterface (s : AppState) : AppState :=
  let cleared := { s with form := [] }
  let cancelled := cancelIdentifyMode cleared
  { cancelled with currentIndex := 0, totalImages := 0, currentMetadata := [],
                   firstBtnDisabled := true, prevBtnDisabled := true,
                   nextBtnDisabled := true, lastBtnDisabled := true }

/-- Mirrors navigateToImage. The Bool records whether loadCurrentImage was
invoked (the image reload request). -/
def navigateToImage (s : AppState) (index : Int) : AppState × Bool :=
  if index < 0 ∨ index ≥ s.totalImages then (s, false)
  else ({ s with currentIndex := index }, true)

/-- Mirrors the success branch of loadFolder, after resetInterface: set the
counts, and either reveal the main content and request the first image, or
alert that no supported images were found. Output: next state, the alert
fired (if any), and the index of the image-load request issued (if any). -/
def loadFolderSuccess (s : AppState) (count : Int) :
    AppState × Option String × Option Int :=
  let reset := resetInterface s
  let loaded := { reset with totalImages := count, currentIndex := 0,
                             currentMetadata := [] }
  if loaded.totalImages > 0 then
    ({ loaded with mainContentVisible := true }, none, some loaded.currentIndex)
  else
    (loaded, some "No supported image files found in the selected folder.", none)

/-- JS truthiness of a property read on the metadata object: the key is
present and its string value is non-empty. -/
def truthyProp (md : List (String × String)) (key : String) : Bool :=
  match objLookup md key with
  | some v => v != ""
  | none => false

/-- The footer-extraction trigger condition in loadCurrentImage: any of the
three probed properties is falsy. -/
def shouldExtractFooter (md : List (String × String)) : Bool :=
  !truthyProp md "Temperature_C" || !truthyProp md "Temperature_F"
    || !truthyProp md "Camera_ID"

/-- The parsed JSON body of a successful GET /api/image/{index} response,
restricted to the parts the claims observe. -/
structure ImageData where
  filename : String
  metadata : Option (List (String × String))
deriving DecidableEq

/-- Mirrors the success path of loadCurrentImage: refresh the navigation
buttons, replace currentMetadata with the response metadata (defaulting to
empty) and re-render the form. The Bool records whether the silent
footer-extraction workflow was triggered. -/
def loadCurrentImageSuccess (s : AppState) (d : ImageData) : AppState × Bool :=
  let nav := updateNavigationButtons s
  let md := d.metadata.getD []
  let loaded := { nav with currentMetadata := md, form := displayMetadata md }
  (loaded, shouldExtractFooter md)

/-- The debug-buffer truncation in addDebugOutput: keep only the trailing
500 characters, mirroring slice(-500) guarded by a length check. -/
def truncateDebug (buf : List Char) : List Char :=
  if buf.length > 500 then buf.drop (buf.length - 500) else buf

/-- Mirrors addDebugOutput, taking the already-timestamped entry: append it
to the buffer and truncate to the most recent 500 characters. -/
def addDebugOutput (s : AppState) (entry : List Char) : AppState :=
  { s with debugBuffer := truncateDebug (s.debugBuffer ++ entry) }

/-- Concatenation of a sequence of debug entries, in append order. -/
def joinEntries (entries : List (List Char)) : List Char :=
  entries.foldl (fun acc e => acc ++ e) []

/-- Mirrors addCustomField: trim the dialog inputs, alert on a blank name
or a name already present in currentMetadata, otherwise append one new
non-readonly field and close the dialog. The Option String is the alert. -/
def addCustomField (s : AppState) (rawName rawValue : String) :
    AppState × Option String :=
  let name := trimString rawName
  let value := trimString rawValue
  if name = "" then (s, some "Please enter a field name")
  else if hasOwnProperty s.currentMetadata name then
    (s, some "A field with this name already exists")
  else
    ({ s with form := createMetadataField s.form name value false,
              addFieldModalOpen := false }, none)

/-- One step of the saveMetadata collection loop: trim the input value and
assign it into the payload object unless the trimmed value is empty. -/
def collectInput (md : List (String × String)) (f : Field) :
    List (String × String) :=
  let value := trimString f.value
  if value = "" then md else objSet md f.name value

/-- The payload object saveMetadata builds from the non-readonly inputs. -/
def saveMetadataPayload (form : List Field) : List (String × String) :=
  (form.filter (fun f => !f.readonly)).foldl collectInput []

/-- The body of the POST /api/save_metadata request: current index plus the
collected payload. -/
def saveMetadataRequest (s : AppState) : Int × List (String × String) :=
  (s.currentIndex, saveMetadataPayload s.form)

/-- The layout measurements endSelection reads from the DOM. -/
structure Geometry where
  wrapperLeft : ℚ
  wrapperTop : ℚ
  imageRectLeft : ℚ
  imageRectTop : ℚ
  naturalWidth : ℚ
  naturalHeight : ℚ
  clientWidth : ℚ
  clientHeight : ℚ
deriving DecidableEq

/-- The geometric core of endSelection: given the recorded drag anchor
(wrapper-relative) and the mouse-up client position, either discard a drag
under 20 display pixels in a dimension, or produce the selection rectangle
converted to image-relative coordinates and scaled to natural size, with
the origin clamped to non-negative. -/
def endSelection (g : Geometry) (startX startY clientX clientY : ℚ) : Option Rect :=
  let currentX := clientX - g.wrapperLeft
  let currentY := clientY - g.wrapperTop
  let selectionWidth := |currentX - startX|
  let selectionHeight := |currentY - startY|
  if selectionWidth < 20 ∨ selectionHeight < 20 then none
  else
    let imageLeft := g.imageRectLeft - g.wrapperLeft
    let imageTop := g.imageRectTop - g.wrapperTop
    let selectionLeft := min startX currentX - imageLeft
    let selectionTop := min startY currentY - imageTop
    let scaleX := g.naturalWidth / g.clientWidth
    let scaleY := g.naturalHeight / g.clientHeight
    some { x := max 0 (selectionLeft * scaleX), y := max 0 (selectionTop * scaleY),
           width := selectionWidth * scaleX, height := selectionHeight * scaleY }

/-- Mirrors the endSelection handler: no-op unless a gesture is active;
a too-small drag cancels back to idle with no request; otherwise the
rectangle is stored and an identification request is issued (Bool). -/
def endSelectionApp (s : AppState) (g : Geometry) (clientX clientY : ℚ) :
    AppState × Bool :=
  if s.isSelecting = false then (s, false)
  else
    match s.selectionStart with
    | none => (s, false)
    | some start =>
      match endSelection g start.1 start.2 clientX clientY with
      | none => (cancelIdentifyMode s, false)
      | some rect => ({ s with currentSelection := some rect }, true)

/-- The identification object of a successful POST /api/identify_species
response; absent properties are none. -/
structure Identification where
  species : Option String
  count : Option Int
  confidence : Option String
  scientific_name : Option String
  habitat : Option String
  description : Option String
deriving DecidableEq

/-- Write into the first form input whose data-field matches the key
(querySelector semantics); no-op when no input matches. -/
def updateFieldValue : List Field → String → String → List Field
  | [], _, _ => []
  | f :: rest, key, v =>
      if f.name = key then { f with value := v } :: rest
      else f :: updateFieldValue rest key v

/-- Read the value of the first form input whose data-field matches. -/
def getFieldValue : List Field → String → Option String
  | [], _ => none
  | f :: rest, key => if f.name = key then some f.value else getFieldValue rest key

/-- Mirrors handleIdentificationResult: overwrite Species (only when
truthy and not "Unknown") and Count (only when positive), append custom
fields for confidence, scientific name and habitat when truthy, and append
the description to the Notes input as a new line. -/
def handleIdentificationResult (s : AppState) (ident : Identification) : AppState :=
  let form0 := s.form
  let form1 :=
    match ident.species with
    | some sp => if sp = "" ∨ sp = "Unknown" then form0
                 else updateFieldValue form0 "Species" sp
    | none => form0
  let form2 :=
    match ident.count with
    | some c => if c > 0 then updateFieldValue form1 "Count" (toString c) else form1
    | none => form1
  let form3 :=
    match ident.confidence with
    | some conf => if conf = "" then form2
                   else createMetadataField form2 "AI_Confidence" conf false
    | none => form2
  let form4 :=
    match ident.scientific_name with
    | some sn => if sn = "" then form3
                 else createMetadataField form3 "Scientific_Name" sn false
    | none => form3
  let form5 :=
    match ident.habitat with
    | some hab => if hab = "" then form4
                  else createMetadataField form4 "Habitat" hab false
    | none => form4
  let form6 :=
    match ident.description with
    | some desc =>
      if desc = "" then form5
      else
        match getFieldValue form5 "Notes" with
        | none => form5
        | some notesValue =>
          let existingNotes := trimString notesValue
          let aiNote := "AI (Namibia): " ++ desc
          updateFieldValue form5 "Notes"
            (if existingNotes = "" then aiNote else existingNotes ++ "\n" ++ aiNote)
    | none => form5
  { s with form := form6 }

/-- The three ways an identification request resolves: a success response,
a server-reported failure, or a thrown exception. -/
inductive IdentOutcome where
  | success (ident : Identification)
  | failure (err : String)
  | exception (err : String)
deriving DecidableEq

/-- Mirrors identifySpecies: no-op without a selection; otherwise disable
the identify control, handle the outcome (merging results on success,
alerting on failure or exception), and in the finally block re-enable the
control and cancel identify mode. The Option String is the alert shown. -/
def identifySpecies (s : AppState) (outcome : IdentOutcome) :
    AppState × Option String :=
  if s.currentSelection = none then (s, none)
  else
    let busy := { s with identifyBtnDisabled := true }
    match outcome with
    | IdentOutcome.success ident =>
        let merged := handleIdentificationResult busy ident
        (cancelIdentifyMode { merged with identifyBtnDisabled := false },
         some ("Species identification complete! Species: "
               ++ ident.species.getD "undefined"
               ++ " Confidence: " ++ ident.confidence.getD "undefined"))
    | IdentOutcome.failure err =>
        (cancelIdentifyMode { busy with identifyBtnDisabled := false },
         some ("Identification failed: " ++ err))
    | IdentOutcome.exception err =>
        (cancelIdentifyMode { busy with identifyBtnDisabled := false },
         some ("Error during identification: " ++ err))

/-- Remove the first form field element with the given label. -/
def removeFieldByName : List Field → String → List Field
  | [], _ => []
  | f :: rest, key => if f.name = key then rest else f :: removeFieldByName rest key

/-- The click handler of a field's delete control: remove the field element
and delete its key from currentMetadata. -/
def deleteFieldClick (s : AppState) (label : String) : AppState :=
  { s with form := removeFieldByName s.form label,
           currentMetadata := objDelete s.currentMetadata label }

/-- A concrete session state used to instantiate the theorems. -/
def sampleState : AppState :=
  { currentIndex := 0, totalImages := 5, currentMetadata := [], form := [],
    debugBuffer := [], isSelecting := false, selectionStart := none,
    currentSelection := none, identifyBtnDisabled := false,
    firstBtnDisabled := true, prevBtnDisabled := true,
    nextBtnDisabled := false, lastBtnDisabled := false,
    mainContentVisible := true, addFieldModalOpen := false }

/-- A state whose form shows the rendered empty-metadata field list and
whose add-field dialog is open. -/
def emptyFormState : AppState :=
  { sampleState with form := displayMetadata [], addFieldModalOpen := true }

/-- A state in the middle of a selection gesture anchored at (10, 10). -/
def selSample : AppState :=
  { sampleState with isSelecting := true, selectionStart := some (10, 10) }

/-- Concrete layout: wrapper at the origin, image flush with the wrapper,
natural size exactly twice the displayed size. -/
def geomSample : Geometry :=
  { wrapperLeft := 0, wrapperTop := 0, imageRectLeft := 0, imageRectTop := 0,
    naturalWidth := 1600, naturalHeight := 1200, clientWidth := 800,
    clientHeight := 600 }

/-- The rendered form for metadata {Species: "Kudu"} with the Notes input
then set to two spaces. -/
def kuduForm : List Field :=
  updateFieldValue (displayMetadata [("Species", "Kudu")]) "Notes" "  "

/-- Metadata carrying all three footer keys, Temperature_C empty. -/
def cexMetadata : List (String × String) :=
  [("Temperature_C", ""), ("Temperature_F", "70"), ("Camera_ID", "X")]

/-- Two debug entries of 300 characters each. -/
def debugEntriesSample : List (List Char) :=
  [List.replicate 300 'a', List.replicate 300 'b']

/-- A state holding a committed selection rectangle. -/
def identSample : AppState :=
  { sampleState with isSelecting := true,
                     currentSelection := some { x := 0, y := 0, width := 30, height := 40 } }

/-- Claim C1: for every call navigateToImage(i) with i < 0 or
i >= totalImages, no request is issued and currentIndex is unchanged; for
every i in [0, totalImages), currentIndex is set to i and the current
image is reloaded. -/
theorem claim_C1 : ∀ (s : AppState) (i : Int),
    ((i < 0 ∨ i ≥ s.totalImages) → navigateToImage s i = (s, false))
    ∧ (0 ≤ i → i < s.totalImages →
        (navigateToImage s i).1.currentIndex = i
        ∧ (navigateToImage s i).1.totalImages = s.totalImages
        ∧ (navigateToImage s i).2 = true) := by
  intro s i
  constructor
  · intro h
    unfold navigateToImage
    rw [if_pos h]
  · intro h0 h1
    have hcond : ¬(i < 0 ∨ i ≥ s.totalImages) := by omega
    unfold navigateToImage
    rw [if_neg hcond]
    exact ⟨rfl, rfl, rfl⟩

/-- Witness for C1: navigating out of range (index 7 of 5) is a no-op with
no request, and navigating in range (index 3 of 5) sets the index and
issues the reload. -/
theorem claim_C1_witness :
    navigateToImage sampleState 7 = (sampleState, false)
    ∧ (navigateToImage sampleState 3).1.currentIndex = 3
    ∧ (navigateToImage sampleState 3).2 = true :=
  ⟨(claim_C1 sampleState 7).1 (Or.inr (by decide)),
   ((claim_C1 sampleState 3).2 (by decide) (by decide)).1,
   ((claim_C1 sampleState 3).2 (by decide) (by decide)).2.2⟩

/-- Claim C2: for every folder load whose response reports success, if
count = 0 the main content view stays hidden (its visibility is unchanged)
and an alert fires with no image request; if count > 0 then currentIndex
is exactly 0, the main content area is revealed, and the first image is
requested. -/
theorem claim_C2 : ∀ (s : AppState) (count : Int),
    (count = 0 →
        (loadFolderSuccess s count).1.mainContentVisible = s.mainContentVisible
        ∧ (loadFolderSuccess s count).2.1
            = some "No supported image files found in the selected folder."
        ∧ (loadFolderSuccess s count).2.2 = none)
    ∧ (count > 0 →
        (loadFolderSuccess s count).1.currentIndex = 0
        ∧ (loadFolderSuccess s count).1.totalImages = count
        ∧ (loadFolderSuccess s count).1.mainContentVisible = true
        ∧ (loadFolderSuccess s count).2.1 = none
        ∧ (loadFolderSuccess s count).2.2 = some 0) := by
  intro s count
  constructor
  · intro h
    subst h
    simp [loadFolderSuccess, resetInterface, cancelIdentifyMode,
          updateNavigationButtons]
  · intro h
    simp [loadFolderSuccess, resetInterface, cancelIdentifyMode,
          updateNavigationButtons, h]

/-- Witness for C2: loading a folder with 0 images leaves visibility
unchanged and alerts; loading one with 3 images lands on index 0, reveals
the main content and requests image 0. -/
theorem claim_C2_witness :
    (loadFolderSuccess sampleState 0).2.1
      = some "No supported image files found in the selected folder."
    ∧ (loadFolderSuccess sampleState 3).1.currentIndex = 0
    ∧ (loadFolderSuccess sampleState 3).1.mainContentVisible = true
    ∧ (loadFolderSuccess sampleState 3).2.2 = some 0 :=
  ⟨((claim_C2 sampleState 0).1 rfl).2.1,
   ((claim_C2 sampleState 3).2 (by decide)).1,
   ((claim_C2 sampleState 3).2 (by decide)).2.2.1,
   ((claim_C2 sampleState 3).2 (by decide)).2.2.2.2⟩

/-- Claim C10: neither adding a custom field nor merging an identification
result modifies currentMetadata — both touch only the rendered form (and
the dialog flag); currentMetadata is replaced wholesale by folder load,
interface reset and image load; a field's delete control removes exactly
its key; and the save payload is computed from the form alone, invariant
under any change to currentMetadata. -/
theorem claim_C10 :
    (∀ (s : AppState) (rawName rawValue : String),
        (addCustomField s rawName rawValue).1.currentMetadata = s.currentMetadata)
    ∧ (∀ (s : AppState) (ident : Identification),
        (handleIdentificationResult s ident).currentMetadata = s.currentMetadata)
    ∧ (∀ (s : AppState) (ident : Identification),
        handleIdentificationResult s ident
          = { s with form := (handleIdentificationResult s ident).form })
    ∧ (∀ (s : AppState) (md : List (String × String)),
        saveMetadataRequest { s with currentMetadata := md } = saveMetadataRequest s)
    ∧ (∀ (s : AppState) (count : Int),
        (loadFolderSuccess s count).1.currentMetadata = [])
    ∧ (∀ s : AppState, (resetInterface s).currentMetadata = [])
    ∧ (∀ (s : AppState) (d : ImageData),
        (loadCurrentImageSuccess s d).1.currentMetadata = d.metadata.getD [])
    ∧ (∀ (s : AppState) (label : String),
        (deleteFieldClick s label).currentMetadata
          = objDelete s.currentMetadata label) := by
  refine ⟨?_, ?_, ?_, ?_, ?_, ?_, ?_, ?_⟩
  · intro s rawName rawValue
    simp only [addCustomField]
    split
    · rfl
    · split <;> rfl
  · intro s ident
    rfl
  · intro s ident
    rfl
  · intro s md
    rfl
  · intro s count
    simp only [loadFolderSuccess]
    split <;> rfl
  · intro s
    rfl
  · intro s d
    rfl
  · intro s label
    rfl

/-- The first rendering loop of displayMetadata appends one field per
metadata entry to whatever the container already holds. -/
theorem foldl_createMeta_entries (l : List (String × String)) :
    ∀ init : List Field,
      l.foldl
        (fun acc kv =>
          createMetadataField acc kv.1 kv.2 (readonlyFields.contains (toLowerCase kv.1)))
        init
      = init
        ++ l.map (fun kv => mkField kv.1 kv.2 (readonlyFields.contains (toLowerCase kv.1))) := by
  induction l with
  | nil => intro init; simp
  | cons kv rest ih =>
    intro init
    simp only [List.foldl_cons, List.map_cons]
    rw [ih]
    simp [createMetadataField]

/-- The second rendering loop of displayMetadata appends one empty field
per common name the metadata lacks. -/
theorem foldl_createMeta_commons (md : List (String × String)) (l : List String) :
    ∀ init : List Field,
      l.foldl
        (fun acc field =>
          if hasOwnProperty md field then acc
          else createMetadataField acc field "" false)
        init
      = init
        ++ (l.filter (fun field => !hasOwnProperty md field)).map
            (fun field => mkField field "" false) := by
  induction l with
  | nil => intro init; simp
  | cons c rest ih =>
    intro init
    by_cases h : hasOwnProperty md c
    · simp only [List.foldl_cons, if_pos h]
      rw [ih]
      simp [List.filter_cons, h]
    · simp only [List.foldl_cons, if_neg h]
      rw [ih]
      simp [List.filter_cons, h, createMetadataField]

/-- Structure of the rendered field list: the metadata entries in order,
then the absent common fields as empty editable fields. -/
theorem displayMetadata_eq (md : List (String × String)) :
    displayMetadata md
      = md.map (fun kv => mkField kv.1 kv.2 (readonlyFields.contains (toLowerCase kv.1)))
        ++ (commonFields.filter (fun c => !hasOwnProperty md c)).map
            (fun c => mkField c "" false) := by
  unfold displayMetadata
  rw [foldl_createMeta_commons, foldl_createMeta_entries]
  simp

/-- Every rendered field element was built by createMetadataField. -/
theorem mem_displayMetadata (md : List (String × String)) (f : Field)
    (hf : f ∈ displayMetadata md) : ∃ label value ro, f = mkField label value ro := by
  rw [displayMetadata_eq] at hf
  rcases List.mem_append.mp hf with h | h
  · rcases List.mem_map.mp h with ⟨kv, _, hkv⟩
    exact ⟨kv.1, kv.2, readonlyFields.contains (toLowerCase kv.1), hkv.symm⟩
  · rcases List.mem_map.mp h with ⟨c, _, hc⟩
    exact ⟨c, "", false, hc.symm⟩

/-- Claim C4: render produces first one field per key in the mapping
(readonly exactly when the lowercased key is denylisted), then one empty
editable field per common name absent from the mapping; common and
readonly fields never receive a delete control; and {Species: "Kudu"}
yields exactly one non-readonly Species field valued "Kudu", one empty
field per remaining common name, and zero delete controls. -/
theorem claim_C4 :
    (∀ md : List (String × String),
      displayMetadata md
        = md.map (fun kv => mkField kv.1 kv.2 (readonlyFields.contains (toLowerCase kv.1)))
          ++ (commonFields.filter (fun c => !hasOwnProperty md c)).map
              (fun c => mkField c "" false)
      ∧ (∀ f ∈ displayMetadata md,
          (f.readonly = true ∨ isCommonField f.name = true) → f.hasDelete = false))
    ∧ displayMetadata [("Species", "Kudu")]
        = [{ name := "Species", value := "Kudu", readonly := false, hasDelete := false },
           { name := "Count", value := "", readonly := false, hasDelete := false },
           { name := "Behavior", value := "", readonly := false, hasDelete := false },
           { name := "Weather", value := "", readonly := false, hasDelete := false },
           { name := "Temperature_C", value := "", readonly := false, hasDelete := false },
           { name := "Temperature_F", value := "", readonly := false, hasDelete := false },
           { name := "Location", value := "", readonly := false, hasDelete := false },
           { name := "Camera_ID", value := "", readonly := false, hasDelete := false },
           { name := "Researcher", value := "", readonly := false, hasDelete := false },
           { name := "Notes", value := "", readonly := false, hasDelete := false }]
    ∧ (displayMetadata [("Species", "Kudu")]).all (fun f => !f.hasDelete) = true := by
  refine ⟨?_, by decide, by decide⟩
  intro md
  refine ⟨displayMetadata_eq md, ?_⟩
  intro f hf hor
  rcases mem_displayMetadata md f hf with ⟨label, value, ro, rfl⟩
  simp only [mkField] at hor ⊢
  rcases hor with h | h
  · rw [h]
    rfl
  · rw [h]
    simp

/-- Witness for C4: the Species field rendered for empty metadata is a
common field and carries no delete control. -/
theorem claim_C4_witness :
    (mkField "Species" "" false).hasDelete = false :=
  ((claim_C4.1 []).2 (mkField "Species" "" false) (by decide) (Or.inr (by decide)))

/-- Assigning a key makes it readable back with the assigned value. -/
theorem objLookup_objSet_self (md : List (String × String)) (key val : String) :
    objLookup (objSet md key val) key = some val := by
  induction md with
  | nil => simp [objSet, objLookup]
  | cons kv rest ih =>
    obtain ⟨k, w⟩ := kv
    by_cases h : k = key
    · simp [objSet, h, objLookup]
    · simp [objSet, h, objLookup, ih]

/-- Assigning one key leaves every other key's lookup unchanged. -/
theorem objLookup_objSet_other (md : List (String × String)) (key val k : String)
    (hk : k ≠ key) : objLookup (objSet md key val) k = objLookup md k := by
  induction md with
  | nil =>
    simp only [objSet, objLookup]
    rw [if_neg (fun h => hk h.symm)]
  | cons kv rest ih =>
    obtain ⟨k1, w⟩ := kv
    by_cases h : k1 = key
    · subst h
      simp only [objSet, if_pos rfl]
      by_cases h2 : k1 = k
      · exact absurd h2.symm hk
      · simp [objLookup, h2]
    · simp only [objSet, if_neg h]
      by_cases h2 : k1 = k
      · simp [objLookup, h2]
      · simp [objLookup, h2, ih]

/-- Every entry of an object after an assignment is either an original
entry or the assigned pair. -/
theorem objSet_mem (md : List (String × String)) (key val : String)
    (p : String × String) (h : p ∈ objSet md key val) :
    p ∈ md ∨ p = (key, val) := by
  induction md with
  | nil =>
    simp only [objSet] at h
    exact Or.inr (by simpa using h)
  | cons kv rest ih =>
    obtain ⟨k, w⟩ := kv
    by_cases hk : k = key
    · simp only [objSet, if_pos hk] at h
      rcases List.mem_cons.mp h with h1 | h1
      · subst hk
        exact Or.inr (by simp [h1])
      · exact Or.inl (List.mem_cons_of_mem _ h1)
    · simp only [objSet, if_neg hk] at h
      rcases List.mem_cons.mp h with h1 | h1
      · exact Or.inl (by simp [h1])
      · rcases ih h1 with h2 | h2
        · exact Or.inl (List.mem_cons_of_mem _ h2)
        · exact Or.inr h2

/-- One collection step never removes a present key. -/
theorem collectInput_isSome (md : List (String × String)) (f : Field)
    (k : String) (h : (objLookup md k).isSome = true) :
    (objLookup (collectInput md f) k).isSome = true := by
  simp only [collectInput]
  split
  · exact h
  · by_cases hk : k = f.name
    · subst hk
      simp [objLookup_objSet_self]
    · rw [objLookup_objSet_other md f.name _ k hk]
      exact h

/-- The collection fold never removes a present key. -/
theorem foldl_collect_isSome (fs : List Field) :
    ∀ (md : List (String × String)) (k : String),
      (objLookup md k).isSome = true →
      (objLookup (fs.foldl collectInput md) k).isSome = true := by
  induction fs with
  | nil => intro md k h; exact h
  | cons f rest ih =>
    intro md k h
    exact ih (collectInput md f) k (collectInput_isSome md f k h)

/-- Every non-readonly field with a non-empty trimmed value ends up as a
key of the collected payload. -/
theorem foldl_collect_present (fs : List Field) :
    ∀ (md : List (String × String)) (f : Field), f ∈ fs →
      trimString f.value ≠ "" →
      (objLookup (fs.foldl collectInput md) f.name).isSome = true := by
  induction fs with
  | nil => intro md f hf; exact absurd hf (List.not_mem_nil f)
  | cons g rest ih =>
    intro md f hf hne
    rcases List.mem_cons.mp hf with h | h
    · subst h
      simp only [List.foldl_cons]
      apply foldl_collect_isSome
      have hcf : collectInput md f = objSet md f.name (trimString f.value) := by
        simp only [collectInput]
        rw [if_neg hne]
      rw [hcf, objLookup_objSet_self]
      rfl
    · exact ih (collectInput md g) f h hne

/-- Every payload entry originates from some processed field: its key is
the field name and its value the field's non-empty trimmed value. -/
theorem foldl_collect_mem (fs : List Field) :
    ∀ (md : List (String × String)) (p : String × String),
      p ∈ fs.foldl collectInput md →
      p ∈ md ∨ ∃ f, f ∈ fs ∧ p = (f.name, trimString f.value) ∧ trimString f.value ≠ "" := by
  induction fs with
  | nil => intro md p h; exact Or.inl h
  | cons g rest ih
  =>
    intro md p h
    rcases ih (collectInput md g) p h with h1 | h1
    · simp only [collectInput] at h1
      split at h1
      · exact Or.inl h1
      · rcases objSet_mem md g.name (trimString g.value) p h1 with h2 | h2
        · exact Or.inl h2
        · refine Or.inr ⟨g, List.mem_cons_self g rest, h2, ?_⟩
          next hne => exact hne
    · rcases h1 with ⟨f, hf, hp, hne⟩
      exact Or.inr ⟨f, List.mem_cons_of_mem g hf, hp, hne⟩

/-- Filtering with the same predicate twice equals filtering once. -/
theorem filter_not_readonly_idem (form : List Field) :
    (form.filter (fun f => !f.readonly)).filter (fun f => !f.readonly)
      = form.filter (fun f => !f.readonly) := by
  induction form with
  | nil => rfl
  | cons f rest ih =>
    by_cases h : f.readonly
    · simp [List.filter_cons, h, ih]
    · simp [List.filter_cons, h, ih]

/-- Claim C3: save collects the value of every non-readonly input, trims
whitespace, and omits every field whose trimmed value is empty; readonly
fields are never submitted (the payload is computed from the non-readonly
inputs only). The form for {Species: "Kudu", Notes: "  "} submits exactly
{Species: "Kudu"}. -/
theorem claim_C3 :
    (∀ form : List Field,
        saveMetadataPayload form
          = saveMetadataPayload (form.filter (fun f => !f.readonly)))
    ∧ (∀ (form : List Field) (k v : String),
        (k, v) ∈ saveMetadataPayload form →
        ∃ f, f ∈ form ∧ f.readonly = false ∧ f.name = k ∧ trimString f.value = v ∧ v ≠ "")
    ∧ (∀ (form : List Field) (f : Field),
        f ∈ form → f.readonly = false → trimString f.value ≠ "" →
        (objLookup (saveMetadataPayload form) f.name).isSome = true)
    ∧ saveMetadataPayload kuduForm = [("Species", "Kudu")] := by
  refine ⟨?_, ?_, ?_, by decide⟩
  · intro form
    unfold saveMetadataPayload
    rw [filter_not_readonly_idem]
  · intro form k v h
    unfold saveMetadataPayload at h
    rcases foldl_collect_mem _ [] (k, v) h with h1 | h1
    · exact absurd h1 (List.not_mem_nil _)
    · rcases h1 with ⟨f, hf, hp, hne⟩
      have hmem := List.mem_filter.mp hf
      have hro : f.readonly = false := by
        have := hmem.2
        simpa using this
      have hk : f.name = k := by
        have := congrArg Prod.fst hp
        exact this.symm
      have hv : trimString f.value = v := by
        have := congrArg Prod.snd hp
        exact this.symm
      exact ⟨f, hmem.1, hro, hk, hv, hv ▸ hne⟩
  · intro form f hf hro hne
    unfold saveMetadataPayload
    apply foldl_collect_present
    · exact List.mem_filter.mpr ⟨hf, by simp [hro]⟩
    · exact hne

/-- Witness for C3: in the Kudu form the non-readonly Species field with
non-empty trimmed value is present in the payload. -/
theorem claim_C3_witness :
    (objLookup (saveMetadataPayload kuduForm)
        (mkField "Species" "Kudu" false).name).isSome = true :=
  claim_C3.2.2.1 kuduForm (mkField "Species" "Kudu" false)
    (by decide) (by decide) (by decide)

/-- Truncation only ever drops a prefix: it always equals dropping down to
the last 500 characters (a vacuous drop when the buffer is short). -/
theorem truncateDebug_eq_drop (buf : List Char) :
    truncateDebug buf = buf.drop (buf.length - 500) := by
  unfold truncateDebug
  split
  · rfl
  · next h =>
    have : buf.length - 500 = 0 := by omega
    rw [this, List.drop_zero]

/-- Truncating an already-truncated buffer after an append agrees with
truncating the full concatenation: the step function commutes with
truncation of its accumulator. -/
theorem truncateDebug_append (a m : List Char) :
    truncateDebug (truncateDebug a ++ m) = truncateDebug (a ++ m) := by
  by_cases ha : a.length > 500
  · have hta : truncateDebug a = a.drop (a.length - 500) := by
      unfold truncateDebug
      rw [if_pos ha]
    have hlen : (a.drop (a.length - 500)).length = 500 := by
      rw [List.length_drop]
      omega
    by_cases hm : m.length = 0
    · have hm0 : m = [] := List.length_eq_zero.mp hm
      subst hm0
      rw [hta]
      simp only [List.append_nil]
      unfold truncateDebug
      rw [if_neg (by omega), if_pos ha]
    · have hm1 : 0 < m.length := Nat.pos_of_ne_zero hm
      rw [hta]
      unfold truncateDebug
      rw [if_pos (by rw [List.length_append, hlen]; omega),
          if_pos (by rw [List.length_append]; omega)]
      rw [List.length_append, List.length_append, hlen]
      rw [List.drop_append_eq_append_drop, List.drop_append_eq_append_drop]
      rw [List.drop_drop, hlen]
      have e1 : 500 + m.length - 500 = m.length := by omega
      rw [e1]
      have e2 : a.length - 500 + m.length = a.length + m.length - 500 := by omega
      have e3 : m.length - 500 = a.length + m.length - 500 - a.length := by omega
      rw [e2, e3]
  · have hta : truncateDebug a = a := by
      unfold truncateDebug
      rw [if_neg ha]
    rw [hta]

/-- The debug buffer after a sequence of appends is a fold of the
character-level step over the entries. -/
theorem foldl_addDebugOutput_buffer (entries : List (List Char)) :
    ∀ s : AppState,
      (entries.foldl addDebugOutput s).debugBuffer
        = entries.foldl (fun b e => truncateDebug (b ++ e)) s.debugBuffer := by
  induction entries with
  | nil => intro s; rfl
  | cons e rest ih =>
    intro s
    simp only [List.foldl_cons]
    rw [ih (addDebugOutput s e)]
    rfl

/-- Concatenation folded from an arbitrary accumulator splits off the
accumulator. -/
theorem foldl_append_split (entries : List (List Char)) :
    ∀ b : List Char,
      entries.foldl (fun acc e => acc ++ e) b
        = b ++ entries.foldl (fun acc e => acc ++ e) [] := by
  induction entries with
  | nil => intro b; simp
  | cons e rest ih =>
    intro b
    simp only [List.foldl_cons]
    rw [ih (b ++ e), ih ([] ++ e)]
    simp

/-- Concatenation of a non-empty entry sequence peels off its head. -/
theorem joinEntries_cons (e : List Char) (rest : List (List Char)) :
    joinEntries (e :: rest) = e ++ joinEntries rest := by
  unfold joinEntries
  simp only [List.foldl_cons, List.nil_append]
  exact foldl_append_split rest e

/-- Folding the truncating step from a truncated accumulator computes the
truncation of the whole concatenation. -/
theorem foldl_truncate (entries : List (List Char)) :
    ∀ b : List Char,
      entries.foldl (fun acc e => truncateDebug (acc ++ e)) (truncateDebug b)
        = truncateDebug (b ++ joinEntries entries) := by
  induction entries with
  | nil => intro b; simp [joinEntries]
  | cons e rest ih =>
    intro b
    simp only [List.foldl_cons]
    rw [truncateDebug_append, ih (b ++ e)]
    rw [joinEntries_cons, List.append_assoc]

/-- Claim C6: for every sequence of debug-log appends whose concatenated
timestamped entries exceed 500 characters, the buffer afterwards is exactly
the trailing 500 characters of the concatenation (truncation drops from
the front); for shorter sequences it is the full concatenation. -/
theorem claim_C6 : ∀ (entries : List (List Char)) (s : AppState),
    s.debugBuffer = [] →
    ((joinEntries entries).length > 500 →
        (entries.foldl addDebugOutput s).debugBuffer
          = (joinEntries entries).drop ((joinEntries entries).length - 500))
    ∧ ((joinEntries entries).length ≤ 500 →
        (entries.foldl addDebugOutput s).debugBuffer = joinEntries entries) := by
  intro entries s hs
  have hbuf : (entries.foldl addDebugOutput s).debugBuffer
      = truncateDebug (joinEntries entries) := by
    rw [foldl_addDebugOutput_buffer, hs]
    have h0 : ([] : List Char) = truncateDebug [] := rfl
    rw [h0, foldl_truncate]
    simp
  constructor
  · intro hlong
    rw [hbuf]
    unfold truncateDebug
    rw [if_pos hlong]
  · intro hshort
    rw [hbuf]
    unfold truncateDebug
    rw [if_neg (by omega)]

set_option maxRecDepth 10000 in
/-- Witness for C6: two 300-character entries (600 characters total)
leave exactly the trailing 500 characters in the buffer. -/
theorem claim_C6_witness :
    (debugEntriesSample.foldl addDebugOutput sampleState).debugBuffer
      = (joinEntries debugEntriesSample).drop
          ((joinEntries debugEntriesSample).length - 500) :=
  (claim_C6 debugEntriesSample sampleState rfl).1 (by decide)

/-- Claim C5: a completed drag whose display width or height is below 20
pixels is discarded (no rectangle, hence no identification request);
otherwise the submitted rectangle is the drag box converted to
image-relative coordinates (subtracting the image's offset within its
wrapper), scaled per axis by naturalWidth/clientWidth and
naturalHeight/clientHeight, with its origin clamped to non-negative.
Concretely, the drag from (10,10) to (25,22) is discarded and returns the
state machine to idle, while the drag from (10,10) to (40,50) issues a
request with the scaled rectangle. -/
theorem claim_C5 :
    (∀ (g : Geometry) (sx sy cx cy : ℚ),
      ((|(cx - g.wrapperLeft) - sx| < 20 ∨ |(cy - g.wrapperTop) - sy| < 20) →
          endSelection g sx sy cx cy = none)
      ∧ (20 ≤ |(cx - g.wrapperLeft) - sx| → 20 ≤ |(cy - g.wrapperTop) - sy| →
          endSelection g sx sy cx cy
            = some { x := max 0 ((min sx (cx - g.wrapperLeft)
                          - (g.imageRectLeft - g.wrapperLeft))
                          * (g.naturalWidth / g.clientWidth)),
                     y := max 0 ((min sy (cy - g.wrapperTop)
                          - (g.imageRectTop - g.wrapperTop))
                          * (g.naturalHeight / g.clientHeight)),
                     width := |(cx - g.wrapperLeft) - sx|
                          * (g.naturalWidth / g.clientWidth),
                     height := |(cy - g.wrapperTop) - sy|
                          * (g.naturalHeight / g.clientHeight) }))
    ∧ (endSelectionApp selSample geomSample 25 22).2 = false
    ∧ (endSelectionApp selSample geomSample 25 22).1.isSelecting = false
    ∧ (endSelectionApp selSample geomSample 25 22).1.currentSelection = none
    ∧ (endSelectionApp selSample geomSample 40 50).2 = true
    ∧ (endSelectionApp selSample geomSample 40 50).1.currentSelection
        = some { x := 20, y := 20, width := 60, height := 80 } := by
  have hsmall : endSelection geomSample 10 10 25 22 = none := by
    norm_num [endSelection, geomSample]
  have hbig : endSelection geomSample 10 10 40 50
      = some { x := 20, y := 20, width := 60, height := 80 } := by
    norm_num [endSelection, geomSample]
  refine ⟨?_,
    by simp [endSelectionApp, selSample, sampleState, hsmall],
    by simp [endSelectionApp, selSample, sampleState, hsmall, cancelIdentifyMode,
             updateNavigationButtons],
    by simp [endSelectionApp, selSample, sampleState, hsmall, cancelIdentifyMode,
             updateNavigationButtons],
    by simp [endSelectionApp, selSample, sampleState, hbig],
    by simp [endSelectionApp, selSample, sampleState, hbig]⟩
  intro g sx sy cx cy
  constructor
  · intro h
    unfold endSelection
    rw [if_pos h]
  · intro hw hh
    have hcond : ¬(|(cx - g.wrapperLeft) - sx| < 20 ∨ |(cy - g.wrapperTop) - sy| < 20) := by
      push_neg
      exact ⟨hw, hh⟩
    unfold endSelection
    rw [if_neg hcond]

/-- Witness for C5: at the sample geometry, the small drag is discarded
and the large drag produces the doubled, clamped rectangle. -/
theorem claim_C5_witness :
    endSelection geomSample 10 10 25 22 = none
    ∧ endSelection geomSample 10 10 40 50
        = some { x := 20, y := 20, width := 60, height := 80 } := by
  constructor
  · exact (claim_C5.1 geomSample 10 10 25 22).1 (Or.inr (by norm_num [geomSample]))
  · rw [(claim_C5.1 geomSample 10 10 40 50).2 (by norm_num [geomSample])
        (by norm_num [geomSample])]
    norm_num [geomSample]

/-- Counterexample to C7: a metadata mapping containing all three of
Temperature_C, Temperature_F and Camera_ID (so none is absent) in which
Temperature_C is the empty string still triggers the footer-extraction
workflow after a successful image load, because the code tests JS
truthiness of the property values, not key presence. -/
theorem claim_C7_counterexample :
    hasOwnProperty cexMetadata "Temperature_C" = true
    ∧ hasOwnProperty cexMetadata "Temperature_F" = true
    ∧ hasOwnProperty cexMetadata "Camera_ID" = true
    ∧ (loadCurrentImageSuccess sampleState
        { filename := "cam1.jpg", metadata := some cexMetadata }).2 = true := by
  refine ⟨by decide, by decide, by decide, ?_⟩
  have : (loadCurrentImageSuccess sampleState
      { filename := "cam1.jpg", metadata := some cexMetadata }).2
        = shouldExtractFooter cexMetadata := rfl
  rw [this]
  decide

/-- A falsy probe on the metadata object means the key is absent or holds
the empty string. -/
theorem not_truthyProp_iff (md : List (String × String)) (key : String) :
    (!truthyProp md key) = true ↔
      (objLookup md key = none ∨ objLookup md key = some "") := by
  cases h : objLookup md key with
  | none => simp [truthyProp, h]
  | some v => simp [truthyProp, h]

/-- Claim C7 as amended: after every successful image load, the
footer-extraction workflow is triggered if and only if at least one of
Temperature_C, Temperature_F, Camera_ID is absent from the loaded metadata
mapping or present with an empty (falsy) value. -/
theorem claim_C7_amended : ∀ (s : AppState) (d : ImageData)
    (md : List (String × String)), d.metadata = some md →
    ((loadCurrentImageSuccess s d).2 = true ↔
      (objLookup md "Temperature_C" = none ∨ objLookup md "Temperature_C" = some ""
        ∨ objLookup md "Temperature_F" = none ∨ objLookup md "Temperature_F" = some ""
        ∨ objLookup md "Camera_ID" = none ∨ objLookup md "Camera_ID" = some "")) := by
  intro s d md hmd
  have h2 : (loadCurrentImageSuccess s d).2 = shouldExtractFooter md := by
    simp [loadCurrentImageSuccess, hmd]
  rw [h2]
  unfold shouldExtractFooter
  simp only [Bool.or_eq_true, not_truthyProp_iff]
  tauto

/-- Witness for the amended C7: the counterexample metadata (Temperature_C
present but empty) triggers extraction. -/
theorem claim_C7_amended_witness :
    (loadCurrentImageSuccess sampleState
        { filename := "cam1.jpg", metadata := some cexMetadata }).2 = true :=
  (claim_C7_amended sampleState
      { filename := "cam1.jpg", metadata := some cexMetadata } cexMetadata rfl).mpr
    (Or.inr (by decide))

/-- Counterexample to C8: with empty currentMetadata and the rendered
empty-metadata form (which shows every common field), adding the field
"Species" raises no alert even though "Species" is already present in the
rendered field set, mutates the form, appends a field that carries no
delete control (it is a common field, hence not deletable), and leaves
the form with two fields named "Species" — so field names are not
pairwise distinct afterwards. -/
theorem claim_C8_counterexample :
    ((emptyFormState.form.map Field.name).contains "Species") = true
    ∧ (addCustomField emptyFormState "Species" "x").2 = none
    ∧ (addCustomField emptyFormState "Species" "x").1.form ≠ emptyFormState.form
    ∧ (((addCustomField emptyFormState "Species" "x").1.form.map
          Field.hasDelete).getLast? = some false)
    ∧ ¬ ((addCustomField emptyFormState "Species" "x").1.form.map Field.name).Nodup := by
  refine ⟨by decide, by decide, by decide, by decide, by decide⟩

/-- Claim C8 as amended: if the trimmed name is blank or already a key of
currentMetadata, an alert fires and the state is unchanged; otherwise
exactly one new non-readonly field is appended (carrying a delete control
exactly when its name is not a common field), the dialog closes, no alert
fires and currentMetadata is untouched — so a name rendered in the form
but absent from currentMetadata can be added again. -/
theorem claim_C8_amended : ∀ (s : AppState) (rawName rawValue : String),
    (trimString rawName = "" →
        addCustomField s rawName rawValue = (s, some "Please enter a field name"))
    ∧ (trimString rawName ≠ "" →
        hasOwnProperty s.currentMetadata (trimString rawName) = true →
        addCustomField s rawName rawValue
          = (s, some "A field with this name already exists"))
    ∧ (trimString rawName ≠ "" →
        hasOwnProperty s.currentMetadata (trimString rawName) = false →
        (addCustomField s rawName rawValue).1.form
            = s.form ++ [mkField (trimString rawName) (trimString rawValue) false]
        ∧ (addCustomField s rawName rawValue).1.addFieldModalOpen = false
        ∧ (addCustomField s rawName rawValue).1.currentMetadata = s.currentMetadata
        ∧ (addCustomField s rawName rawValue).2 = none
        ∧ (mkField (trimString rawName) (trimString rawValue) false).readonly = false
        ∧ (mkField (trimString rawName) (trimString rawValue) false).hasDelete
            = !isCommonField (trimString rawName)) := by
  intro s rawName rawValue
  refine ⟨?_, ?_, ?_⟩
  · intro h
    simp only [addCustomField]
    rw [if_pos h]
  · intro h1 h2
    simp only [addCustomField]
    rw [if_neg h1, if_pos h2]
  · intro h1 h2
    have hstep : addCustomField s rawName rawValue
        = ({ s with
             form := createMetadataField s.form (trimString rawName)
                       (trimString rawValue) false,
             addFieldModalOpen := false }, none) := by
      simp only [addCustomField]
      rw [if_neg h1, if_neg (by simp [h2])]
    rw [hstep]
    refine ⟨rfl, rfl, rfl, rfl, rfl, ?_⟩
    simp [mkField]

/-- Witness for the amended C8: adding the novel name "Trail" with value
"north" to the rendered empty form appends exactly one deletable
non-readonly field and closes the dialog. -/
theorem claim_C8_amended_witness :
    (addCustomField emptyFormState "Trail" "north").1.form
        = emptyFormState.form ++ [mkField "Trail" "north" false]
    ∧ (addCustomField emptyFormState "Trail" "north").1.addFieldModalOpen = false
    ∧ (addCustomField emptyFormState "Trail" "north").2 = none := by
  have h := (claim_C8_amended emptyFormState "Trail" "north").2.2
    (by decide) (by decide)
  exact ⟨h.1, h.2.1, h.2.2.2.1⟩

/-- Merging identification results touches only the form: every other
state component is preserved. -/
theorem handleIdent_preserves (s : AppState) (ident : Identification) :
    (handleIdentificationResult s ident).currentIndex = s.currentIndex
    ∧ (handleIdentificationResult s ident).totalImages = s.totalImages
    ∧ (handleIdentificationResult s ident).isSelecting = s.isSelecting
    ∧ (handleIdentificationResult s ident).currentSelection = s.currentSelection
    ∧ (handleIdentificationResult s ident).identifyBtnDisabled
        = s.identifyBtnDisabled :=
  ⟨rfl, rfl, rfl, rfl, rfl⟩

/-- Claim C9: for every outcome of an identification request — success,
server-reported failure, or thrown exception — the identify control is
re-enabled and the selector returns to idle: selection cleared, selecting
flag off, and navigation buttons restored to updateNavigationButtons
state; every outcome (failures in particular) surfaces a blocking alert. -/
theorem claim_C9 : ∀ (s : AppState) (outcome : IdentOutcome) (r : Rect),
    s.currentSelection = some r →
    (identifySpecies s outcome).1.identifyBtnDisabled = false
    ∧ (identifySpecies s outcome).1.isSelecting = false
    ∧ (identifySpecies s outcome).1.currentSelection = none
    ∧ (identifySpecies s outcome).1.firstBtnDisabled = (s.currentIndex == 0)
    ∧ (identifySpecies s outcome).1.prevBtnDisabled = (s.currentIndex == 0)
    ∧ (identifySpecies s outcome).1.nextBtnDisabled
        = (s.currentIndex == s.totalImages - 1)
    ∧ (identifySpecies s outcome).1.lastBtnDisabled
        = (s.currentIndex == s.totalImages - 1)
    ∧ ((identifySpecies s outcome).2).isSome = true := by
  intro s outcome r h
  have hne : ¬ s.currentSelection = none := by
    rw [h]
    exact fun hc => Option.noConfusion hc
  cases outcome with
  | success ident =>
    have hidx := (handleIdent_preserves { s with identifyBtnDisabled := true } ident).1
    have htot := (handleIdent_preserves { s with identifyBtnDisabled := true } ident).2.1
    simp only [identifySpecies]
    rw [if_neg hne]
    simp [cancelIdentifyMode, updateNavigationButtons, hidx, htot]
  | failure err =>
    simp only [identifySpecies]
    rw [if_neg hne]
    simp [cancelIdentifyMode, updateNavigationButtons]
  | exception err =>
    simp only [identifySpecies]
    rw [if_neg hne]
    simp [cancelIdentifyMode, updateNavigationButtons]

/-- Witness for C9: a failed identification on a state holding a committed
selection re-enables the control, clears the gesture, and alerts. -/
theorem claim_C9_witness :
    (identifySpecies identSample (IdentOutcome.failure "network")).1.identifyBtnDisabled
        = false
    ∧ (identifySpecies identSample (IdentOutcome.failure "network")).1.isSelecting
        = false
    ∧ (identifySpecies identSample (IdentOutcome.failure "network")).1.currentSelection
        = none
    ∧ ((identifySpecies identSample (IdentOutcome.failure "network")).2).isSome
        = true := by
  have h := claim_C9 identSample (IdentOutcome.failure "network")
    { x := 0, y := 0, width := 30, height := 40 } rfl
  exact ⟨h.1, h.2.1, h.2.2.1, h.2.2.2.2.2.2.2⟩

end CamTrap
